import Mathlib

/-!
Verification development for fedmsg_atomic_composer/composer.py.

The module is embedded shallowly: the release dictionary lives in an
explicit heap of string-to-string dictionaries (Python dicts are mutable
objects shared by reference), each method of AtomicComposer becomes a
function in a state monad M carrying the heap plus a trace of observable
effects (log lines, spawned processes, filesystem operations, scheduled
pipeline runs), and the outside world (filesystem predicates, process
outcomes, template rendering) is an oracle record Env.  Python exceptions
(KeyError, OSError, IOError) are modelled with Except.
-/

namespace AtomicComposer

/-! ## Python dictionaries with string keys and string values -/

abbrev Dict := List (String × String)

def Dict.get : Dict → String → Option String
  | [], _ => none
  | (k, v) :: t, key => if k = key then some v else Dict.get t key

def Dict.set : Dict → String → String → Dict
  | [], key, val => [(key, val)]
  | (k, v) :: t, key, val =>
      if k = key then (key, val) :: t else (k, v) :: Dict.set t key val

def Dict.getD (d : Dict) (k dflt : String) : String :=
  (Dict.get d k).getD dflt

/-! ## POSIX path helpers mirroring os.path.join, dirname, basename -/

def rstripSlash (l : List Char) : List Char :=
  ((l.reverse).dropWhile (fun c => c = '/')).reverse

def allSlash (l : List Char) : Bool :=
  l.all (fun c => c = '/')

/-- Whether a slash occurs in the remaining characters. -/
def hasSlash : List Char → Bool
  | [] => false
  | c :: t => c = '/' || hasSlash t

/-- The part of the path up to and including the last slash, mirroring
p[:p.rfind(sep) + 1] from posixpath.split. -/
def takeToLastSlash : List Char → List Char
  | [] => []
  | c :: t =>
      if hasSlash t then c :: takeToLastSlash t
      else if c = '/' then [c] else []

/-- The part of the path after the last slash, mirroring posixpath.basename. -/
def afterLastSlash : List Char → List Char
  | [] => []
  | c :: t =>
      if hasSlash t || c = '/' then afterLastSlash t else c :: t

def dirnameL (p : List Char) : List Char :=
  let head := takeToLastSlash p
  if head ≠ [] ∧ ¬ allSlash head then rstripSlash head else head

def dirname (p : String) : String := String.mk (dirnameL p.data)

def basename (p : String) : String := String.mk (afterLastSlash p.data)

/-- posixpath.join for two components. -/
def pathJoinL (a b : List Char) : List Char :=
  if b.head? = some '/' then b
  else if a = [] ∨ a.getLast? = some '/' then a ++ b
  else a ++ '/' :: b

def pathJoin (a b : String) : String := String.mk (pathJoinL a.data b.data)

/-! ## Substring test mirroring the Python operator in on strings -/

def infixOf (n : List Char) : List Char → Bool
  | [] => n.isPrefixOf []
  | c :: t => n.isPrefixOf (c :: t) || infixOf n t

def substr (needle hay : String) : Bool := infixOf needle.data hay.data

/-! ## Events, process results, errors, machine state -/

/-- Outcome of one external process: stdout, stderr, exit code. -/
structure ProcResult where
  out : String
  err : String
  code : Int
deriving DecidableEq

/-- A command argument: Python passes strings, except for the degenerate
branch of mock_cmd where an empty list is wrapped into a list whose single
element is itself a list. -/
abbrev Arg := Sum String (List String)

/-- Inner fedmsg body: topic plus the msg dictionary. -/
structure Body where
  topic : String
  msg : Dict
deriving DecidableEq

/-- An inbound fedmsg, as consume receives it: msg[body]. -/
structure Msg where
  body : Body
deriving DecidableEq

/-- Observable effects of the consumer, recorded in order. -/
inductive Event where
  | infoMsg (m : Msg)
  | info (s : String)
  | warn (s : String)
  | debug (s : String)
  | error (s : String)
  | mkdtempEv (p : String)
  | mkdirEv (p : String)
  | makedirsEv (p : String)
  | symlinkEv (src dst : String)
  | fileWrite (p : String) (content : String)
  | rmtreeEv (p : String)
  | proc (cmd : List Arg) (res : ProcResult)
  | scheduled (rel : Nat)
deriving DecidableEq

/-- Python exceptions the embedded code can raise. -/
inductive PyErr where
  | keyerror (k : String)
  | oserror (p : String)
  | ioerror (p : String)
deriving DecidableEq

deriving instance DecidableEq for Except

/-- Heap of release dictionaries: Python dicts are mutable objects
addressed by reference. -/
structure Heap where
  next : Nat
  mem : Nat → Dict

/-- Full machine state: the dict heap and the effect trace. -/
structure St where
  heap : Heap
  trace : List Event

/-! ## The effect monad: state plus Python exceptions -/

def M (α : Type) : Type := St → Except PyErr α × St

def M.pure {α : Type} (a : α) : M α := fun σ => (Except.ok a, σ)

def M.bind {α β : Type} (x : M α) (f : α → M β) : M β := fun σ =>
  match x σ with
  | (Except.ok a, σ1) => f a σ1
  | (Except.error e, σ1) => (Except.error e, σ1)

def M.throw {α : Type} (e : PyErr) : M α := fun σ => (Except.error e, σ)

def emit (ev : Event) : M Unit := fun σ =>
  (Except.ok (), { σ with trace := σ.trace ++ [ev] })

/-- Read release[k]; raises KeyError when the key is absent. -/
def getKey (rel : Nat) (k : String) : M String := fun σ =>
  match Dict.get (σ.heap.mem rel) k with
  | some v => (Except.ok v, σ)
  | none => (Except.error (PyErr.keyerror k), σ)

/-- Write release[k] = v in place. -/
def setKey (rel : Nat) (k v : String) : M Unit := fun σ =>
  (Except.ok (),
   { σ with heap :=
      { σ.heap with mem := fun r =>
          if r = rel then Dict.set (σ.heap.mem rel) k v else σ.heap.mem r } })

/-- Read the whole dictionary object (for ** expansion into templates). -/
def readDictAt (rel : Nat) : M Dict := fun σ => (Except.ok (σ.heap.mem rel), σ)

/-- copy.deepcopy of a dict: allocate a fresh object with the same entries. -/
def alloc (d : Dict) : M Nat := fun σ =>
  (Except.ok σ.heap.next,
   { σ with heap :=
      { next := σ.heap.next + 1,
        mem := fun r => if r = σ.heap.next then d else σ.heap.mem r } })

/-- Lookup in a plain (non-heap) dictionary; raises KeyError when absent. -/
def dictGet (d : Dict) (k : String) : M String := fun σ =>
  match Dict.get d k with
  | some v => (Except.ok v, σ)
  | none => (Except.error (PyErr.keyerror k), σ)

/-! ## Environment: hub configuration and the outside world as oracles -/

/-- The hub configuration keys the module reads from self (they are copied
onto the consumer instance at startup). -/
structure Config where
  git_repo : String
  output_dir : String
  log_dir : String

/-- The external world.  Filesystem predicates, process outcomes and the
pure library collaborators (str.format, mako rendering, json
serialization) are oracles; the Fails oracles say which filesystem calls
raise an exception. -/
structure Env where
  cfg : Config
  releasesMap : String → Option Nat
  isdir : String → Bool
  mkdtempPath : String
  run : List Arg → ProcResult
  mkdirFails : String → Bool
  makedirsFails : String → Bool
  symlinkFails : String → String → Bool
  openFails : String → Bool
  rmtreeFails : String → Bool
  fmt : String → Dict → String
  render : String → Dict → String
  jsonDump : String → String
  mockTemplate : String

/-! ## Filesystem primitives -/

def mkdirM (env : Env) (p : String) : M Unit := fun σ =>
  if env.mkdirFails p then (Except.error (PyErr.oserror p), σ)
  else (Except.ok (), { σ with trace := σ.trace ++ [Event.mkdirEv p] })

def makedirsM (env : Env) (p : String) : M Unit := fun σ =>
  if env.makedirsFails p then (Except.error (PyErr.oserror p), σ)
  else (Except.ok (), { σ with trace := σ.trace ++ [Event.makedirsEv p] })

def symlinkM (env : Env) (src dst : String) : M Unit := fun σ =>
  if env.symlinkFails src dst then (Except.error (PyErr.oserror dst), σ)
  else (Except.ok (), { σ with trace := σ.trace ++ [Event.symlinkEv src dst] })

/-- Opening a file for writing with file(p, w); raises IOError on failure. -/
def openWriteM (env : Env) (p : String) : M Unit := fun σ =>
  if env.openFails p then (Except.error (PyErr.ioerror p), σ)
  else (Except.ok (), σ)

def rmtreeM (env : Env) (p : String) : M Unit := fun σ =>
  if env.rmtreeFails p then (Except.error (PyErr.oserror p), σ)
  else (Except.ok (), { σ with trace := σ.trace ++ [Event.rmtreeEv p] })

def mkdtempM (env : Env) : M String := fun σ =>
  (Except.ok env.mkdtempPath,
   { σ with trace := σ.trace ++ [Event.mkdtempEv env.mkdtempPath] })

/-! ## Rendering a command list for the log line Running ... -/

def renderArg : Arg → String
  | Sum.inl s => s
  | Sum.inr l => String.intercalate ", " l

def renderCmd (cmd : List Arg) : String :=
  String.intercalate " " (cmd.map renderArg)

/-! ## The AtomicComposer methods (composer.py lines 45-177) -/

/-- Lines 161-170.  Runs an external command, logs stderr and a nonzero
return code, and returns the (stdout, stderr, returncode) triple.  The
process outcome comes from the env oracle; the function itself never
raises. -/
def call (env : Env) (cmd : List Arg) : M (String × String × Int) :=
  M.bind (emit (Event.info ("Running " ++ renderCmd cmd))) (fun _ =>
  let p := env.run cmd
  M.bind (emit (Event.proc cmd p)) (fun _ =>
  M.bind (if p.err ≠ "" then emit (Event.error p.err) else M.pure ()) (fun _ =>
  M.bind (if p.code ≠ 0 then
            emit (Event.error ("returncode = " ++ toString p.code))
          else M.pure ()) (fun _ =>
  M.pure (p.out, p.err, p.code)))))

/-- Line 108: cmd = isinstance(cmd, list) and cmd or [cmd].  A string is
wrapped in a singleton list; a non-empty list passes through; an empty
list (falsy) is wrapped, yielding a list containing the empty list. -/
def pyListWrap : Sum String (List String) → List Arg
  | Sum.inl s => [Sum.inl s]
  | Sum.inr [] => [Sum.inr []]
  | Sum.inr (a :: t) => (a :: t).map Sum.inl

/-- The fixed prefix of every mock invocation (line 109-110). -/
def mockCmdArgs (mock mockDir : String) (tail : List Arg) : List Arg :=
  [Sum.inl "/usr/bin/mock", Sum.inl "-r", Sum.inl mock,
   Sum.inl ("--configdir=" ++ mockDir)] ++ tail

/-- Lines 106-111: run a mock command in the chroot for a release. -/
def mock_cmd (env : Env) (rel : Nat) (cmd : Sum String (List String)) : M Unit :=
  let cmdList := pyListWrap cmd
  M.bind (getKey rel "mock") (fun mock =>
  M.bind (getKey rel "mock_dir") (fun mockDir =>
  M.bind (call env (mockCmdArgs mock mockDir cmdList)) (fun res =>
  emit (Event.debug res.1))))

/-- Lines 134-135. -/
def mock_shell (env : Env) (rel : Nat) (cmd : String) : M Unit :=
  mock_cmd env rel (Sum.inr ["--shell", cmd])

/-- Lines 113-121: initialize the mock chroot when its root directory is
absent, update it otherwise. -/
def init_mock (env : Env) (rel : Nat) : M Unit :=
  M.bind (getKey rel "mock") (fun mock =>
  let root := "/var/lib/mock/" ++ mock
  if env.isdir root = false then
    M.bind (mock_cmd env rel (Sum.inl "--init")) (fun _ =>
    emit (Event.info "mock chroot initialized"))
  else
    M.bind (mock_cmd env rel (Sum.inl "--update")) (fun _ =>
    emit (Event.info "mock chroot updated")))

/-- Lines 123-132: render the mock configuration into tmp_dir/mock. -/
def generate_mock_config (env : Env) (rel : Nat) : M Unit :=
  let mockTmpl := env.mockTemplate
  M.bind (getKey rel "tmp_dir") (fun tmp =>
  let mockDir := pathJoin tmp "mock"
  M.bind (setKey rel "mock_dir" mockDir) (fun _ =>
  M.bind (getKey rel "mock_dir") (fun md =>
  M.bind (getKey rel "mock") (fun mock =>
  let mockCfg := pathJoin md (mock ++ ".cfg")
  M.bind (mkdirM env mockDir) (fun _ =>
  M.bind (symlinkM env "/etc/mock/site-defaults.cfg"
            (pathJoin mockDir "site-defaults.cfg")) (fun _ =>
  M.bind (symlinkM env "/etc/mock/logging.ini"
            (pathJoin mockDir "logging.ini")) (fun _ =>
  M.bind (openWriteM env mockCfg) (fun _ =>
  M.bind (readDictAt rel) (fun d =>
  emit (Event.fileWrite mockCfg (env.render mockTmpl d)))))))))))

/-- Lines 99-104: clone the fedora-atomic.git branch into the scratch
directory.  The clone result is discarded; a failed clone does not raise. -/
def update_configs (env : Env) (rel : Nat) : M Unit :=
  M.bind (getKey rel "tmp_dir") (fun tmp =>
  let gitDir := pathJoin tmp (basename env.cfg.git_repo)
  M.bind (setKey rel "git_dir" gitDir) (fun _ =>
  M.bind (getKey rel "git_branch") (fun branch =>
  M.bind (call env [Sum.inl "git", Sum.inl "clone", Sum.inl "-b",
                    Sum.inl branch, Sum.inl env.cfg.git_repo,
                    Sum.inl gitDir]) (fun _ =>
  M.pure ()))))

/-- Line 144: the path the repository is initialized at, namely the tree
name joined under the parent directory of output_dir (lines 138 and 144). -/
def ostreeInitRepoPath (outputDir tree : String) : String :=
  pathJoin (dirname outputDir) tree

/-- Lines 137-148: create the output parent and log directories when
missing, then run ostree init inside the chroot when the repository path
does not yet exist. -/
def ostree_init (env : Env) (rel : Nat) : M Unit :=
  M.bind (getKey rel "output_dir") (fun od =>
  let base := dirname od
  M.bind (if env.isdir base = false then
            M.bind (emit (Event.info ("Creating " ++ base))) (fun _ =>
            makedirsM env base)
          else M.pure ()) (fun _ =>
  M.bind (getKey rel "log_dir") (fun ld =>
  M.bind (if env.isdir ld = false then makedirsM env ld
          else M.pure ()) (fun _ =>
  M.bind (getKey rel "tree") (fun tree =>
  let out := ostreeInitRepoPath od tree
  if env.isdir out = false then
    let logfile := pathJoin ld "ostree.log"
    mock_shell env rel
      ("ostree init --repo=" ++ out ++ " --mode=archive-z2 >" ++
       logfile ++ " 2>&1")
  else M.pure ())))))

/-- Lines 150-159: serialize the treefile into the clone and run the
compose tool inside the chroot against output_dir.  The wall-clock
duration in the completion log line is elided. -/
def ostree_compose (env : Env) (rel : Nat) : M Unit :=
  M.bind (getKey rel "log_dir") (fun ld =>
  let logfile := pathJoin ld "rpm-ostree.log"
  M.bind (getKey rel "git_dir") (fun gd =>
  let treefile := pathJoin gd "treefile.json"
  M.bind (openWriteM env treefile) (fun _ =>
  M.bind (getKey rel "treefile") (fun payload =>
  M.bind (emit (Event.fileWrite treefile (env.jsonDump payload))) (fun _ =>
  M.bind (getKey rel "output_dir") (fun od =>
  M.bind (mock_shell env rel
            ("rpm-ostree compose tree --repo=" ++ od ++ " " ++ treefile ++
             " >" ++ logfile ++ " 2>&1")) (fun _ =>
  emit (Event.info "rpm-ostree compose complete"))))))))

/-- Lines 172-177: refresh the summary of the repository at output_dir. -/
def update_ostree_summary (env : Env) (rel : Nat) : M String :=
  M.bind (getKey rel "name") (fun name =>
  M.bind (emit (Event.info ("Updating the ostree summary for " ++ name))) (fun _ =>
  M.bind (getKey rel "output_dir") (fun od =>
  M.bind (mock_shell env rel ("ostree --repo=" ++ od ++ " summary --update")) (fun _ =>
  M.pure (pathJoin od "summary")))))

/-- Lines 95-97: remove the scratch directory. -/
def cleanup (env : Env) (rel : Nat) : M Unit :=
  M.bind (getKey rel "tmp_dir") (fun tmp =>
  rmtreeM env tmp)

/-- Lines 86-93: the pipeline, a plain sequence with no try/finally; an
exception in any step skips all following steps, including cleanup. -/
def compose (env : Env) (rel : Nat) : M Unit :=
  M.bind (update_configs env rel) (fun _ =>
  M.bind (generate_mock_config env rel) (fun _ =>
  M.bind (init_mock env rel) (fun _ =>
  M.bind (ostree_init env rel) (fun _ =>
  M.bind (ostree_compose env rel) (fun _ =>
  M.bind (update_ostree_summary env rel) (fun _ =>
  cleanup env rel))))))

/-- Lines 78-84, the tail of consume shared by all branches: look up the
release (repo = None reaches the lookup too and raises KeyError), deep-copy
it, create the scratch directory, expand output_dir and log_dir, and hand
the pipeline to the reactor thread pool. -/
def consumeTail (env : Env) (repo : Option String) : M Unit :=
  M.bind (match repo with
          | none => M.throw (PyErr.keyerror "None")
          | some r =>
              match env.releasesMap r with
              | none => M.throw (PyErr.keyerror r)
              | some src => M.pure src) (fun src =>
  M.bind (readDictAt src) (fun d =>
  M.bind (alloc d) (fun rel =>
  M.bind (mkdtempM env) (fun tmp =>
  M.bind (setKey rel "tmp_dir" tmp) (fun _ =>
  M.bind (readDictAt rel) (fun d1 =>
  M.bind (setKey rel "output_dir" (env.fmt env.cfg.output_dir d1)) (fun _ =>
  M.bind (readDictAt rel) (fun d2 =>
  M.bind (setKey rel "log_dir" (env.fmt env.cfg.log_dir d2)) (fun _ =>
  emit (Event.scheduled rel))))))))))

/-- Lines 45-84: classify the incoming fedmsg.  Note that the unknown
topic branch only warns and then falls through to the release lookup with
repo still None. -/
def consume (env : Env) (msg : Msg) : M Unit :=
  M.bind (emit (Event.infoMsg msg)) (fun _ =>
  let topic := msg.body.topic
  let inner := msg.body.msg
  if substr "rawhide" topic then
    M.bind (dictGet inner "arch") (fun arch =>
    M.bind (emit (Event.info ("New rawhide " ++ arch ++ " compose ready"))) (fun _ =>
    consumeTail env (some "rawhide")))
  else if substr "branched" topic then
    M.bind (dictGet inner "arch") (fun arch =>
    M.bind (dictGet inner "branch") (fun branch =>
    M.bind (emit (Event.info ("New " ++ branch ++ " " ++ arch ++
                              " branched compose ready"))) (fun _ =>
    M.bind (dictGet inner "log") (fun lg =>
    if lg ≠ "done" then emit (Event.warn "Compose not done?")
    else consumeTail env (some branch)))))
  else if substr "updates.fedora" topic then
    M.bind (emit (Event.info ("New Fedora " ++ Dict.getD inner "release" "" ++
                              " " ++ Dict.getD inner "repo" "" ++
                              " compose ready"))) (fun _ =>
    M.bind (dictGet inner "release") (fun r =>
    M.bind (dictGet inner "repo") (fun rp =>
    consumeTail env (some ("f" ++ r ++ "-" ++ rp)))))
  else
    M.bind (emit (Event.warn ("Unknown topic: " ++ topic))) (fun _ =>
    consumeTail env none))

/-! ## Event classifiers used in statements -/

def isProc : Event → Bool
  | Event.proc _ _ => true
  | _ => false

def isRmtree : Event → Bool
  | Event.rmtreeEv _ => true
  | _ => false

def isScheduled : Event → Bool
  | Event.scheduled _ => true
  | _ => false

/-! ## The path the specification describes for the repository -/

/-- Modelled from the spec: the filesystem layout section says the
repository produced by a run lives at output_dir/tree.  Stated here only
to compare against the paths the code actually uses. -/
def specRepoPath (outputDir tree : String) : String := pathJoin outputDir tree

/-! ## Concrete fixtures for witnesses and counterexamples -/

def testDict : Dict :=
  [("name", "f22"), ("tree", "docker-host"), ("mock", "fedora-22-x86_64"),
   ("git_branch", "f22"), ("treefile", "treefile-payload"),
   ("tmp_dir", "/tmp/scratch"),
   ("output_dir", "/srv/fedora-atomic/f22/docker-host"),
   ("log_dir", "/srv/logs/f22")]

def baseCfg : Config :=
  { git_repo := "https://example.com/git/fedora-atomic.git",
    output_dir := "OUTPUT_TEMPLATE",
    log_dir := "LOG_TEMPLATE" }

/-- An environment where every directory exists, every filesystem call
succeeds and every command exits 0. -/
def baseEnv : Env :=
  { cfg := baseCfg,
    releasesMap := fun n => if n = "rawhide" then some 0 else none,
    isdir := fun _ => true,
    mkdtempPath := "/tmp/scratch",
    run := fun _ => { out := "", err := "", code := 0 },
    mkdirFails := fun _ => false,
    makedirsFails := fun _ => false,
    symlinkFails := fun _ _ => false,
    openFails := fun _ => false,
    rmtreeFails := fun _ => false,
    fmt := fun t _ => t,
    render := fun _ _ => "mock config text",
    jsonDump := fun s => s,
    mockTemplate := "mock template" }

/-- Initial state: the releases entry for rawhide lives at heap cell 0. -/
def st0 : St :=
  { heap := { next := 1, mem := fun r => if r = 0 then testDict else [] },
    trace := [] }

/-- Environment where os.mkdir always raises, so step 2 of the pipeline
raises OSError. -/
def mkdirFailEnv : Env := { baseEnv with mkdirFails := fun _ => true }

/-- The exact git clone command issued for testDict. -/
def cloneCmdList : List Arg :=
  [Sum.inl "git", Sum.inl "clone", Sum.inl "-b", Sum.inl "f22",
   Sum.inl baseCfg.git_repo, Sum.inl "/tmp/scratch/fedora-atomic.git"]

/-- The mock --update command issued for testDict once mock_dir is set. -/
def mockUpdateCmd : List Arg :=
  mockCmdArgs "fedora-22-x86_64" "/tmp/scratch/mock" [Sum.inl "--update"]

/-- Environment in which only the git clone has the given outcome and
everything else succeeds. -/
def cloneResEnv (res : ProcResult) : Env :=
  { baseEnv with
      run := fun cmd =>
        if cmd = cloneCmdList then res
        else { out := "", err := "", code := 0 } }

/-- The outcome of an unreachable-host clone failure. -/
def cloneFailRes : ProcResult :=
  { out := "", err := "fatal: unable to connect", code := 128 }

/-- The shell string of the compose invocation for testDict. -/
def composeShellStr : String :=
  "rpm-ostree compose tree --repo=/srv/fedora-atomic/f22/docker-host " ++
  "/tmp/scratch/fedora-atomic.git/treefile.json >/srv/logs/f22/rpm-ostree.log 2>&1"

/-- The full mock command of the compose invocation for testDict. -/
def composeCmdList : List Arg :=
  mockCmdArgs "fedora-22-x86_64" "/tmp/scratch/mock"
    [Sum.inl "--shell", Sum.inl composeShellStr]

/-- The shell string of the summary update for testDict. -/
def summaryShellStr : String :=
  "ostree --repo=/srv/fedora-atomic/f22/docker-host summary --update"

/-- The full mock command of the summary update for testDict. -/
def summaryCmdList : List Arg :=
  mockCmdArgs "fedora-22-x86_64" "/tmp/scratch/mock"
    [Sum.inl "--shell", Sum.inl summaryShellStr]

/-- Environment in which only the rpm-ostree compose command exits
nonzero. -/
def composeFailEnv : Env :=
  { baseEnv with
      run := fun cmd =>
        if cmd = composeCmdList then { out := "", err := "", code := 1 }
        else { out := "", err := "", code := 0 } }

/-- A release dictionary, as it stands after steps 1-2 of the pipeline,
whose expanded output_dir does not end in the tree name. -/
def c8Dict : Dict :=
  [("name", "f22"), ("tree", "docker-host"), ("mock", "fedora-22-x86_64"),
   ("git_branch", "f22"), ("treefile", "treefile-payload"),
   ("tmp_dir", "/tmp/scratch"),
   ("git_dir", "/tmp/scratch/fedora-atomic.git"),
   ("mock_dir", "/tmp/scratch/mock"),
   ("output_dir", "/srv/atomic/f22"), ("log_dir", "/srv/logs/f22")]

/-- Environment where only the would-be repository path is absent. -/
def c8Env : Env :=
  { baseEnv with isdir := fun p => p ≠ "/srv/atomic/docker-host" }

def c8St : St :=
  { heap := { next := 1, mem := fun r => if r = 0 then c8Dict else [] },
    trace := [] }

/-- A message whose topic matches none of the three markers. -/
def unknownMsg : Msg :=
  { body := { topic := "org.fedoraproject.prod.something.else",
              msg := [("arch", "x86_64")] } }

/-- A branched message whose log field is not done, with a topic that also
contains the rawhide marker. -/
def bothMarkersMsg : Msg :=
  { body := { topic := "compose.rawhide.branched",
              msg := [("arch", "x86_64"), ("branch", "f40"),
                      ("log", "started")] } }

/-- The first four steps of the pipeline, used to state that a run
reaches step 5. -/
def pipelinePrefix4 (env : Env) (rel : Nat) : M Unit :=
  M.bind (update_configs env rel) (fun _ =>
  M.bind (generate_mock_config env rel) (fun _ =>
  M.bind (init_mock env rel) (fun _ =>
  ostree_init env rel)))

/-! ## Trace shapes of the process-running helpers -/

/-- The events one call invocation appends: the Running log line, the
process itself, and the conditional stderr and returncode error logs. -/
def callEvents (env : Env) (cmd : List Arg) : List Event :=
  [Event.info ("Running " ++ renderCmd cmd), Event.proc cmd (env.run cmd)] ++
  (if (env.run cmd).err ≠ "" then [Event.error (env.run cmd).err] else []) ++
  (if (env.run cmd).code ≠ 0 then
     [Event.error ("returncode = " ++ toString (env.run cmd).code)]
   else [])

/-- The events one mock_cmd invocation appends. -/
def mockEvents (env : Env) (mock md : String) (tailArgs : List Arg) : List Event :=
  callEvents env (mockCmdArgs mock md tailArgs) ++
  [Event.debug (env.run (mockCmdArgs mock md tailArgs)).out]

/-! ## Frame predicates used by the theorems -/

/-- The computation never changes the heap. -/
def HeapFixed {α : Type} (m : M α) : Prop :=
  ∀ σ, ((m σ).2).heap = σ.heap

/-- The computation never changes the dictionary at cell r. -/
def CellFixed {α : Type} (m : M α) (r : Nat) : Prop :=
  ∀ σ, ((m σ).2).heap.mem r = σ.heap.mem r

/-- The computation never changes the value of key k in the dictionary at
cell rel. -/
def KeyFixed {α : Type} (m : M α) (rel : Nat) (k : String) : Prop :=
  ∀ σ, Dict.get (((m σ).2).heap.mem rel) k = Dict.get (σ.heap.mem rel) k

/-- The computation changes no heap cell below the current allocation
bound and never lowers the bound. -/
def LowFixed {α : Type} (m : M α) : Prop :=
  ∀ σ r, r < σ.heap.next →
    ((m σ).2).heap.mem r = σ.heap.mem r ∧ σ.heap.next ≤ ((m σ).2).heap.next

/-! # Theorems -/

set_option maxRecDepth 100000

/-! ## Dictionary lemmas -/

theorem Dict.get_set_ne (d : Dict) (key val : String) {k : String}
    (h : k ≠ key) : Dict.get (Dict.set d key val) k = Dict.get d k := by
  induction d with
  | nil => simp [Dict.set, Dict.get, Ne.symm h]
  | cons p t ih =>
      obtain ⟨k1, v1⟩ := p
      by_cases hk : k1 = key
      · subst hk
        simp [Dict.set, Dict.get, Ne.symm h]
      · simp [Dict.set, Dict.get, hk, ih]

/-! ## Path lemmas for the repository location -/

theorem hasSlash_eq_false {l : List Char} (h : ∀ c ∈ l, c ≠ '/') :
    hasSlash l = false := by
  induction l with
  | nil => rfl
  | cons c t ih =>
      simp [hasSlash, h c (List.mem_cons_self c t),
            ih fun x hx => h x (List.mem_cons_of_mem c hx)]

theorem takeToLastSlash_of_no_slash {l : List Char} (h : hasSlash l = false) :
    takeToLastSlash l = [] := by
  induction l with
  | nil => rfl
  | cons c t ih =>
      simp [hasSlash] at h
      simp [takeToLastSlash, h.1, h.2, ih h.2]

theorem hasSlash_append_slash (A T : List Char) :
    hasSlash (A ++ '/' :: T) = true := by
  induction A with
  | nil => simp [hasSlash]
  | cons c A1 ih => simp [hasSlash, ih]

theorem takeToLastSlash_append {T : List Char} (hT : hasSlash T = false)
    (A : List Char) : takeToLastSlash (A ++ '/' :: T) = A ++ ['/'] := by
  induction A with
  | nil => simp [takeToLastSlash, hT]
  | cons c A1 ih => simp [takeToLastSlash, hasSlash_append_slash, ih]

theorem head?_ne_slash {T : List Char} (hT : hasSlash T = false) :
    T.head? ≠ some '/' := by
  cases T with
  | nil => simp
  | cons c t =>
      simp [hasSlash] at hT
      simp [hT.1]

theorem rstripSlash_append_slash {A : List Char} (hA : A.getLast? ≠ some '/') :
    rstripSlash (A ++ ['/']) = A := by
  have h1 : (A ++ ['/']).reverse = '/' :: A.reverse := by simp
  unfold rstripSlash
  rw [h1]
  have h2 : List.dropWhile (fun c => c = '/') ('/' :: A.reverse) =
      List.dropWhile (fun c => c = '/') A.reverse := by
    simp [List.dropWhile_cons]
  rw [h2]
  have h3 : List.dropWhile (fun c => c = '/') A.reverse = A.reverse := by
    cases hr : A.reverse with
    | nil => rfl
    | cons c r =>
        have hgl := @List.getLast?_eq_head?_reverse Char A
        rw [hr] at hgl
        have hc : c ≠ '/' := by
          intro hcc
          exact hA (by rw [hgl, hcc]; rfl)
        simp [List.dropWhile_cons, hc]
  rw [h3]
  simp

theorem allSlash_append_slash_false {A : List Char} (hne : A ≠ [])
    (hA : A.getLast? ≠ some '/') : allSlash (A ++ ['/']) = false := by
  cases hg : A.getLast? with
  | none =>
      exact absurd (by exact List.getLast?_eq_none_iff.mp hg) hne
  | some c =>
      have hcA : c ∈ A := List.mem_of_mem_getLast? hg
      have hc : c ≠ '/' := fun hh => hA (by rw [hg, hh])
      cases hall : allSlash (A ++ ['/']) with
      | false => rfl
      | true =>
          have hx := (List.all_eq_true.mp hall) c (List.mem_append_left _ hcA)
          simp at hx
          exact absurd hx hc

theorem pathJoinL_nil {T : List Char} (hTh : T.head? ≠ some '/') :
    pathJoinL [] T = T := by
  unfold pathJoinL
  rw [if_neg hTh, if_pos (Or.inl rfl), List.nil_append]

theorem pathJoinL_cons {A T : List Char} (hTh : T.head? ≠ some '/')
    (hAe : A ≠ []) (hA : A.getLast? ≠ some '/') :
    pathJoinL A T = A ++ '/' :: T := by
  unfold pathJoinL
  rw [if_neg hTh, if_neg (not_or.mpr ⟨hAe, hA⟩)]

theorem dirnameL_join {A T : List Char} (hT : hasSlash T = false)
    (hAe : A ≠ []) (hA : A.getLast? ≠ some '/') :
    dirnameL (A ++ '/' :: T) = A := by
  unfold dirnameL
  rw [takeToLastSlash_append hT]
  have hcond : (A ++ ['/']) ≠ [] ∧ ¬ allSlash (A ++ ['/']) = true :=
    ⟨by simp, by rw [allSlash_append_slash_false hAe hA]; simp⟩
  rw [if_pos hcond]
  exact rstripSlash_append_slash hA

theorem pathJoinL_dirnameL {A T : List Char} (hT : hasSlash T = false)
    (hA : A.getLast? ≠ some '/') :
    pathJoinL (dirnameL (pathJoinL A T)) T = pathJoinL A T := by
  have hTh := head?_ne_slash hT
  by_cases hAe : A = []
  · subst hAe
    rw [pathJoinL_nil hTh]
    have h2 : dirnameL T = [] := by
      unfold dirnameL
      rw [takeToLastSlash_of_no_slash hT]
      simp
    rw [h2, pathJoinL_nil hTh]
  · rw [pathJoinL_cons hTh hAe hA, dirnameL_join hT hAe hA,
        pathJoinL_cons hTh hAe hA]

theorem pathJoinL_ne {P T : List Char} (hTne : T ≠ [])
    (hTh : T.head? ≠ some '/') : pathJoinL P T ≠ P := by
  unfold pathJoinL
  rw [if_neg hTh]
  by_cases h : P = [] ∨ P.getLast? = some '/'
  · rw [if_pos h]
    intro he
    have hx := congrArg List.length he
    simp [List.length_append] at hx
    exact hTne hx
  · rw [if_neg h]
    intro he
    have hx := congrArg List.length he
    simp [List.length_append] at hx

/-! ## Generic decomposition helpers -/

theorem split_ok {α : Type} {p : Except PyErr α × St} {a : α}
    (h : p.1 = Except.ok a) : p = (Except.ok a, p.2) := by
  obtain ⟨x, σ⟩ := p
  simp only at h
  rw [h]

/-- call always returns the triple from the process oracle and only
appends its log events; it cannot raise. -/
theorem call_eq (env : Env) (cmd : List Arg) (σ : St) :
    call env cmd σ =
      (Except.ok ((env.run cmd).out, (env.run cmd).err, (env.run cmd).code),
       { σ with trace := σ.trace ++ callEvents env cmd }) := by
  by_cases he : (env.run cmd).err = "" <;>
    by_cases hc : (env.run cmd).code = 0 <;>
      simp [call, M.bind, M.pure, emit, callEvents, he, hc]

/-! ## Heap frame lemmas -/

theorem heapFixed_bind {α β : Type} {x : M α} {f : α → M β}
    (hx : HeapFixed x) (hf : ∀ a, HeapFixed (f a)) :
    HeapFixed (M.bind x f) := by
  intro σ
  have h1 := hx σ
  unfold M.bind
  rcases hx1 : x σ with ⟨r, σ1⟩
  rw [hx1] at h1
  cases r with
  | ok a => rw [hf a σ1]; exact h1
  | error e => exact h1

theorem heapFixed_ite {α : Type} {c : Prop} [Decidable c] {a b : M α}
    (ha : HeapFixed a) (hb : HeapFixed b) : HeapFixed (if c then a else b) := by
  by_cases h : c
  · rw [if_pos h]; exact ha
  · rw [if_neg h]; exact hb

theorem heapFixed_pure {α : Type} (a : α) : HeapFixed (M.pure a) :=
  fun _ => rfl

theorem heapFixed_throw {α : Type} (e : PyErr) : HeapFixed (M.throw (α := α) e) :=
  fun _ => rfl

theorem heapFixed_emit (ev : Event) : HeapFixed (emit ev) :=
  fun _ => rfl

theorem heapFixed_getKey (rel : Nat) (k : String) : HeapFixed (getKey rel k) := by
  intro σ; unfold getKey; split <;> rfl

theorem heapFixed_dictGet (d : Dict) (k : String) : HeapFixed (dictGet d k) := by
  intro σ; unfold dictGet; split <;> rfl

theorem heapFixed_readDictAt (rel : Nat) : HeapFixed (readDictAt rel) :=
  fun _ => rfl

theorem heapFixed_mkdirM (env : Env) (p : String) : HeapFixed (mkdirM env p) := by
  intro σ; unfold mkdirM; split <;> rfl

theorem heapFixed_makedirsM (env : Env) (p : String) : HeapFixed (makedirsM env p) := by
  intro σ; unfold makedirsM; split <;> rfl

theorem heapFixed_symlinkM (env : Env) (src dst : String) :
    HeapFixed (symlinkM env src dst) := by
  intro σ; unfold symlinkM; split <;> rfl

theorem heapFixed_openWriteM (env : Env) (p : String) :
    HeapFixed (openWriteM env p) := by
  intro σ; unfold openWriteM; split <;> rfl

theorem heapFixed_rmtreeM (env : Env) (p : String) : HeapFixed (rmtreeM env p) := by
  intro σ; unfold rmtreeM; split <;> rfl

theorem heapFixed_mkdtempM (env : Env) : HeapFixed (mkdtempM env) :=
  fun _ => rfl

theorem heapFixed_call (env : Env) (cmd : List Arg) : HeapFixed (call env cmd) := by
  intro σ; rw [call_eq]

theorem heapFixed_mock_cmd (env : Env) (rel : Nat)
    (c : Sum String (List String)) : HeapFixed (mock_cmd env rel c) := by
  simp only [mock_cmd]
  refine heapFixed_bind (heapFixed_getKey _ _) fun mock => ?_
  refine heapFixed_bind (heapFixed_getKey _ _) fun md => ?_
  refine heapFixed_bind (heapFixed_call _ _) fun res => ?_
  exact heapFixed_emit _

theorem heapFixed_mock_shell (env : Env) (rel : Nat) (c : String) :
    HeapFixed (mock_shell env rel c) :=
  heapFixed_mock_cmd env rel _

theorem heapFixed_init_mock (env : Env) (rel : Nat) :
    HeapFixed (init_mock env rel) := by
  simp only [init_mock]
  refine heapFixed_bind (heapFixed_getKey _ _) fun mock => ?_
  refine heapFixed_ite ?_ ?_ <;>
    exact heapFixed_bind (heapFixed_mock_cmd _ _ _) fun _ => heapFixed_emit _

theorem heapFixed_ostree_init (env : Env) (rel : Nat) :
    HeapFixed (ostree_init env rel) := by
  simp only [ostree_init]
  refine heapFixed_bind (heapFixed_getKey _ _) fun od => ?_
  refine heapFixed_bind
    (heapFixed_ite
      (heapFixed_bind (heapFixed_emit _) fun _ => heapFixed_makedirsM _ _)
      (heapFixed_pure _)) fun _ => ?_
  refine heapFixed_bind (heapFixed_getKey _ _) fun ld => ?_
  refine heapFixed_bind
    (heapFixed_ite (heapFixed_makedirsM _ _) (heapFixed_pure _)) fun _ => ?_
  refine heapFixed_bind (heapFixed_getKey _ _) fun tree => ?_
  exact heapFixed_ite (heapFixed_mock_shell _ _ _) (heapFixed_pure _)

theorem heapFixed_ostree_compose (env : Env) (rel : Nat) :
    HeapFixed (ostree_compose env rel) := by
  simp only [ostree_compose]
  refine heapFixed_bind (heapFixed_getKey _ _) fun ld => ?_
  refine heapFixed_bind (heapFixed_getKey _ _) fun gd => ?_
  refine heapFixed_bind (heapFixed_openWriteM _ _) fun _ => ?_
  refine heapFixed_bind (heapFixed_getKey _ _) fun payload => ?_
  refine heapFixed_bind (heapFixed_emit _) fun _ => ?_
  refine heapFixed_bind (heapFixed_getKey _ _) fun od => ?_
  refine heapFixed_bind (heapFixed_mock_shell _ _ _) fun _ => ?_
  exact heapFixed_emit _

theorem heapFixed_update_ostree_summary (env : Env) (rel : Nat) :
    HeapFixed (update_ostree_summary env rel) := by
  simp only [update_ostree_summary]
  refine heapFixed_bind (heapFixed_getKey _ _) fun name => ?_
  refine heapFixed_bind (heapFixed_emit _) fun _ => ?_
  refine heapFixed_bind (heapFixed_getKey _ _) fun od => ?_
  refine heapFixed_bind (heapFixed_mock_shell _ _ _) fun _ => ?_
  exact heapFixed_pure _

theorem heapFixed_cleanup (env : Env) (rel : Nat) :
    HeapFixed (cleanup env rel) := by
  simp only [cleanup]
  exact heapFixed_bind (heapFixed_getKey _ _) fun tmp => heapFixed_rmtreeM _ _

/-! ## Key frame lemmas for the two steps that write the dictionary -/

theorem keyFixed_of_heapFixed {α : Type} {m : M α} (h : HeapFixed m)
    (rel : Nat) (k : String) : KeyFixed m rel k := by
  intro σ; rw [h σ]

theorem keyFixed_bind {α β : Type} {x : M α} {f : α → M β} {rel : Nat}
    {k : String} (hx : KeyFixed x rel k) (hf : ∀ a, KeyFixed (f a) rel k) :
    KeyFixed (M.bind x f) rel k := by
  intro σ
  have h1 := hx σ
  unfold M.bind
  rcases hx1 : x σ with ⟨r, σ1⟩
  rw [hx1] at h1
  cases r with
  | ok a => rw [hf a σ1]; exact h1
  | error e => exact h1

theorem keyFixed_setKey {rel : Nat} {k key val : String} (h : k ≠ key) :
    KeyFixed (setKey rel key val) rel k := by
  intro σ
  unfold setKey
  simp [Dict.get_set_ne _ _ _ h]

theorem keyFixed_update_configs (env : Env) (rel : Nat) {k : String}
    (h : k ≠ "git_dir") : KeyFixed (update_configs env rel) rel k := by
  simp only [update_configs]
  refine keyFixed_bind (keyFixed_of_heapFixed (heapFixed_getKey _ _) _ _) fun tmp => ?_
  refine keyFixed_bind (keyFixed_setKey h) fun _ => ?_
  refine keyFixed_bind (keyFixed_of_heapFixed (heapFixed_getKey _ _) _ _) fun branch => ?_
  refine keyFixed_bind (keyFixed_of_heapFixed (heapFixed_call _ _) _ _) fun _ => ?_
  exact keyFixed_of_heapFixed (heapFixed_pure _) _ _

theorem keyFixed_generate_mock_config (env : Env) (rel : Nat) {k : String}
    (h : k ≠ "mock_dir") : KeyFixed (generate_mock_config env rel) rel k := by
  simp only [generate_mock_config]
  refine keyFixed_bind (keyFixed_of_heapFixed (heapFixed_getKey _ _) _ _) fun tmp => ?_
  refine keyFixed_bind (keyFixed_setKey h) fun _ => ?_
  refine keyFixed_bind (keyFixed_of_heapFixed (heapFixed_getKey _ _) _ _) fun md => ?_
  refine keyFixed_bind (keyFixed_of_heapFixed (heapFixed_getKey _ _) _ _) fun mock => ?_
  refine keyFixed_bind (keyFixed_of_heapFixed (heapFixed_mkdirM _ _) _ _) fun _ => ?_
  refine keyFixed_bind (keyFixed_of_heapFixed (heapFixed_symlinkM _ _ _) _ _) fun _ => ?_
  refine keyFixed_bind (keyFixed_of_heapFixed (heapFixed_symlinkM _ _ _) _ _) fun _ => ?_
  refine keyFixed_bind (keyFixed_of_heapFixed (heapFixed_openWriteM _ _) _ _) fun _ => ?_
  refine keyFixed_bind (keyFixed_of_heapFixed (heapFixed_readDictAt _) _ _) fun d => ?_
  exact keyFixed_of_heapFixed (heapFixed_emit _) _ _

/-! ## Cell frame lemmas: the pipeline writes only its own dictionary -/

theorem cellFixed_of_heapFixed {α : Type} {m : M α} (h : HeapFixed m)
    (r : Nat) : CellFixed m r := by
  intro σ; rw [h σ]

theorem cellFixed_bind {α β : Type} {x : M α} {f : α → M β} {r : Nat}
    (hx : CellFixed x r) (hf : ∀ a, CellFixed (f a) r) :
    CellFixed (M.bind x f) r := by
  intro σ
  have h1 := hx σ
  unfold M.bind
  rcases hx1 : x σ with ⟨res, σ1⟩
  rw [hx1] at h1
  cases res with
  | ok a => rw [hf a σ1]; exact h1
  | error e => exact h1

theorem cellFixed_setKey {rel r : Nat} (h : r ≠ rel) (k v : String) :
    CellFixed (setKey rel k v) r := by
  intro σ
  unfold setKey
  simp [h]

theorem cellFixed_update_configs (env : Env) (rel : Nat) {r : Nat}
    (h : r ≠ rel) : CellFixed (update_configs env rel) r := by
  simp only [update_configs]
  refine cellFixed_bind (cellFixed_of_heapFixed (heapFixed_getKey _ _) _) fun tmp => ?_
  refine cellFixed_bind (cellFixed_setKey h _ _) fun _ => ?_
  refine cellFixed_bind (cellFixed_of_heapFixed (heapFixed_getKey _ _) _) fun branch => ?_
  refine cellFixed_bind (cellFixed_of_heapFixed (heapFixed_call _ _) _) fun _ => ?_
  exact cellFixed_of_heapFixed (heapFixed_pure _) _

theorem cellFixed_generate_mock_config (env : Env) (rel : Nat) {r : Nat}
    (h : r ≠ rel) : CellFixed (generate_mock_config env rel) r := by
  simp only [generate_mock_config]
  refine cellFixed_bind (cellFixed_of_heapFixed (heapFixed_getKey _ _) _) fun tmp => ?_
  refine cellFixed_bind (cellFixed_setKey h _ _) fun _ => ?_
  refine cellFixed_bind (cellFixed_of_heapFixed (heapFixed_getKey _ _) _) fun md => ?_
  refine cellFixed_bind (cellFixed_of_heapFixed (heapFixed_getKey _ _) _) fun mock => ?_
  refine cellFixed_bind (cellFixed_of_heapFixed (heapFixed_mkdirM _ _) _) fun _ => ?_
  refine cellFixed_bind (cellFixed_of_heapFixed (heapFixed_symlinkM _ _ _) _) fun _ => ?_
  refine cellFixed_bind (cellFixed_of_heapFixed (heapFixed_symlinkM _ _ _) _) fun _ => ?_
  refine cellFixed_bind (cellFixed_of_heapFixed (heapFixed_openWriteM _ _) _) fun _ => ?_
  refine cellFixed_bind (cellFixed_of_heapFixed (heapFixed_readDictAt _) _) fun d => ?_
  exact cellFixed_of_heapFixed (heapFixed_emit _) _

theorem cellFixed_compose (env : Env) (rel : Nat) {r : Nat} (h : r ≠ rel) :
    CellFixed (compose env rel) r := by
  unfold compose
  refine cellFixed_bind (cellFixed_update_configs env rel h) fun _ => ?_
  refine cellFixed_bind (cellFixed_generate_mock_config env rel h) fun _ => ?_
  refine cellFixed_bind (cellFixed_of_heapFixed (heapFixed_init_mock _ _) _) fun _ => ?_
  refine cellFixed_bind (cellFixed_of_heapFixed (heapFixed_ostree_init _ _) _) fun _ => ?_
  refine cellFixed_bind (cellFixed_of_heapFixed (heapFixed_ostree_compose _ _) _) fun _ => ?_
  refine cellFixed_bind (cellFixed_of_heapFixed (heapFixed_update_ostree_summary _ _) _) fun _ => ?_
  exact cellFixed_of_heapFixed (heapFixed_cleanup _ _) _

/-! ## Low-cell frame lemmas: consume writes only the fresh copy -/

theorem lowFixed_of_heapFixed {α : Type} {m : M α} (h : HeapFixed m) :
    LowFixed m := by
  intro σ r hr
  rw [h σ]
  exact ⟨rfl, le_refl _⟩

theorem lowFixed_bind {α β : Type} {x : M α} {f : α → M β}
    (hx : LowFixed x) (hf : ∀ a, LowFixed (f a)) : LowFixed (M.bind x f) := by
  intro σ r hr
  have h1 := hx σ r hr
  unfold M.bind
  rcases hx1 : x σ with ⟨res, σ1⟩
  rw [hx1] at h1
  cases res with
  | error e => exact h1
  | ok a =>
      have h2 := hf a σ1 r (lt_of_lt_of_le hr h1.2)
      exact ⟨h2.1.trans h1.1, le_trans h1.2 h2.2⟩

theorem lowFixed_ite {α : Type} {c : Prop} [Decidable c] {a b : M α}
    (ha : LowFixed a) (hb : LowFixed b) : LowFixed (if c then a else b) := by
  by_cases h : c
  · rw [if_pos h]; exact ha
  · rw [if_neg h]; exact hb

theorem lowFixed_consumeTail (env : Env) (repo : Option String) :
    LowFixed (consumeTail env repo) := by
  intro σ r hr
  have hne : r ≠ σ.heap.next := Nat.ne_of_lt hr
  cases repo with
  | none => simp [consumeTail, M.bind, M.throw]
  | some rn =>
      cases hm : env.releasesMap rn with
      | none => simp [consumeTail, M.bind, M.throw, hm]
      | some src =>
          simp [consumeTail, M.bind, M.throw, M.pure, readDictAt, alloc,
                mkdtempM, setKey, emit, hm, hne, Nat.le_succ]

theorem lowFixed_consume (env : Env) (msg : Msg) : LowFixed (consume env msg) := by
  simp only [consume]
  refine lowFixed_bind (lowFixed_of_heapFixed (heapFixed_emit _)) fun _ => ?_
  refine lowFixed_ite ?_ (lowFixed_ite ?_ (lowFixed_ite ?_ ?_))
  · refine lowFixed_bind (lowFixed_of_heapFixed (heapFixed_dictGet _ _)) fun arch => ?_
    refine lowFixed_bind (lowFixed_of_heapFixed (heapFixed_emit _)) fun _ => ?_
    exact lowFixed_consumeTail env _
  · refine lowFixed_bind (lowFixed_of_heapFixed (heapFixed_dictGet _ _)) fun arch => ?_
    refine lowFixed_bind (lowFixed_of_heapFixed (heapFixed_dictGet _ _)) fun branch => ?_
    refine lowFixed_bind (lowFixed_of_heapFixed (heapFixed_emit _)) fun _ => ?_
    refine lowFixed_bind (lowFixed_of_heapFixed (heapFixed_dictGet _ _)) fun lg => ?_
    exact lowFixed_ite (lowFixed_of_heapFixed (heapFixed_emit _))
      (lowFixed_consumeTail env _)
  · refine lowFixed_bind (lowFixed_of_heapFixed (heapFixed_emit _)) fun _ => ?_
    refine lowFixed_bind (lowFixed_of_heapFixed (heapFixed_dictGet _ _)) fun r1 => ?_
    refine lowFixed_bind (lowFixed_of_heapFixed (heapFixed_dictGet _ _)) fun r2 => ?_
    exact lowFixed_consumeTail env _
  · refine lowFixed_bind (lowFixed_of_heapFixed (heapFixed_emit _)) fun _ => ?_
    exact lowFixed_consumeTail env _

/-! ## Pipeline decomposition helpers -/

/-- cleanup only appends to the trace, so membership is preserved. -/
theorem cleanup_mem (env : Env) (rel : Nat) (σ : St) (e : Event)
    (h : e ∈ σ.trace) : e ∈ ((cleanup env rel σ).2).trace := by
  unfold cleanup M.bind getKey
  cases hg : Dict.get (σ.heap.mem rel) "tmp_dir" with
  | none => simpa [hg] using h
  | some tmp =>
      by_cases hrm : env.rmtreeFails tmp <;> simp [hg, rmtreeM, hrm, h]

/-- When the first four steps succeed, the pipeline continues with steps
5-7 from the state they produced. -/
theorem compose_after_step4 (env : Env) (rel : Nat) (σ σ4 : St)
    (hpre : pipelinePrefix4 env rel σ = (Except.ok (), σ4)) :
    compose env rel σ =
      (M.bind (ostree_compose env rel) (fun _ =>
       M.bind (update_ostree_summary env rel) (fun _ =>
       cleanup env rel))) σ4 := by
  unfold pipelinePrefix4 at hpre
  unfold compose
  rcases h1 : update_configs env rel σ with ⟨r1, σ1⟩
  simp only [M.bind, h1] at hpre ⊢
  cases r1 with
  | error e => simp at hpre
  | ok a1 =>
  rcases h2 : generate_mock_config env rel σ1 with ⟨r2, σ2⟩
  simp only [h2] at hpre ⊢
  cases r2 with
  | error e => simp at hpre
  | ok a2 =>
  rcases h3 : init_mock env rel σ2 with ⟨r3, σ3⟩
  simp only [h3] at hpre ⊢
  cases r3 with
  | error e => simp at hpre
  | ok a3 =>
  rcases h4 : ostree_init env rel σ3 with ⟨r4, σ4x⟩
  simp only [h4] at hpre ⊢
  cases r4 with
  | error e => simp at hpre
  | ok a4 =>
  simp only [Prod.mk.injEq] at hpre
  rw [hpre.2]

/-! ## Claim theorems -/

/-- C7: for every command and every process outcome, call returns the
(stdout, stderr, exit code) triple and never raises, whatever the exit
code or stderr output. -/
theorem C7_call_never_raises (env : Env) (cmd : List Arg) (σ : St) :
    (call env cmd σ).1 =
      Except.ok ((env.run cmd).out, (env.run cmd).err, (env.run cmd).code) := by
  rw [call_eq]

/-- C1 amended: the scratch directory is removed whenever the pipeline
runs to completion without an exception, which covers every run in which
external commands merely reported failure exit codes; an exception in any
step skips the removal (see the counterexample). -/
theorem C1_scratch_removed_on_clean_exit (env : Env) (rel : Nat) (σ : St)
    (p : String)
    (hp : Dict.get (σ.heap.mem rel) "tmp_dir" = some p)
    (h : (compose env rel σ).1 = Except.ok ()) :
    Event.rmtreeEv p ∈ ((compose env rel σ).2).trace := by
  unfold compose at h ⊢
  rcases h1 : update_configs env rel σ with ⟨r1, σ1⟩
  have hp1 : Dict.get (σ1.heap.mem rel) "tmp_dir" = some p := by
    have hk := keyFixed_update_configs env rel
      (show "tmp_dir" ≠ "git_dir" by decide) σ
    rw [h1] at hk
    exact hk.trans hp
  simp only [M.bind, h1] at h ⊢
  cases r1 with
  | error e => simp at h
  | ok a1 =>
  rcases h2 : generate_mock_config env rel σ1 with ⟨r2, σ2⟩
  have hp2 : Dict.get (σ2.heap.mem rel) "tmp_dir" = some p := by
    have hk := keyFixed_generate_mock_config env rel
      (show "tmp_dir" ≠ "mock_dir" by decide) σ1
    rw [h2] at hk
    exact hk.trans hp1
  simp only [h2] at h ⊢
  cases r2 with
  | error e => simp at h
  | ok a2 =>
  rcases h3 : init_mock env rel σ2 with ⟨r3, σ3⟩
  have hp3 : Dict.get (σ3.heap.mem rel) "tmp_dir" = some p := by
    have hk := heapFixed_init_mock env rel σ2
    rw [h3] at hk
    rw [show σ3.heap = σ2.heap from hk]
    exact hp2
  simp only [h3] at h ⊢
  cases r3 with
  | error e => simp at h
  | ok a3 =>
  rcases h4 : ostree_init env rel σ3 with ⟨r4, σ4⟩
  have hp4 : Dict.get (σ4.heap.mem rel) "tmp_dir" = some p := by
    have hk := heapFixed_ostree_init env rel σ3
    rw [h4] at hk
    rw [show σ4.heap = σ3.heap from hk]
    exact hp3
  simp only [h4] at h ⊢
  cases r4 with
  | error e => simp at h
  | ok a4 =>
  rcases h5 : ostree_compose env rel σ4 with ⟨r5, σ5⟩
  have hp5 : Dict.get (σ5.heap.mem rel) "tmp_dir" = some p := by
    have hk := heapFixed_ostree_compose env rel σ4
    rw [h5] at hk
    rw [show σ5.heap = σ4.heap from hk]
    exact hp4
  simp only [h5] at h ⊢
  cases r5 with
  | error e => simp at h
  | ok a5 =>
  rcases h6 : update_ostree_summary env rel σ5 with ⟨r6, σ6⟩
  have hp6 : Dict.get (σ6.heap.mem rel) "tmp_dir" = some p := by
    have hk := heapFixed_update_ostree_summary env rel σ5
    rw [h6] at hk
    rw [show σ6.heap = σ5.heap from hk]
    exact hp5
  simp only [h6] at h ⊢
  cases r6 with
  | error e => simp at h
  | ok a6 =>
  simp only [cleanup, M.bind, getKey, hp6] at h ⊢
  by_cases hrm : env.rmtreeFails p
  · simp [rmtreeM, hrm] at h
  · simp [rmtreeM, hrm]

/-- C1 witness: on the all-good fixture the hypotheses of the amended
theorem hold and the scratch directory removal is in the trace. -/
theorem C1_witness :
    Dict.get (st0.heap.mem 0) "tmp_dir" = some "/tmp/scratch" ∧
    (compose baseEnv 0 st0).1 = Except.ok () ∧
    Event.rmtreeEv "/tmp/scratch" ∈ ((compose baseEnv 0 st0).2).trace :=
  ⟨by decide, by decide,
   C1_scratch_removed_on_clean_exit baseEnv 0 st0 "/tmp/scratch"
     (by decide) (by decide)⟩

/-- C2 amended: a failed clone (any stderr, any nonzero exit code) does
not abort the run: update_configs returns normally, the later steps still
execute (here the chroot update of step 3), and the pipeline runs to
completion. -/
theorem C2_clone_failure_does_not_abort (res : ProcResult)
    (hcode : res.code ≠ 0) :
    (update_configs (cloneResEnv res) 0 st0).1 = Except.ok () ∧
    Event.proc mockUpdateCmd { out := "", err := "", code := 0 } ∈
      ((compose (cloneResEnv res) 0 st0).2).trace ∧
    (compose (cloneResEnv res) 0 st0).1 = Except.ok () := by
  rcases res with ⟨ro, re, rc⟩
  simp only at hcode
  by_cases he : re = "" <;>
    simp [compose, update_configs, generate_mock_config, init_mock, ostree_init,
          ostree_compose, update_ostree_summary, cleanup, mock_cmd, mock_shell,
          pyListWrap, mockCmdArgs, mockUpdateCmd, cloneCmdList,
          call, M.bind, M.pure, emit, getKey, setKey, readDictAt, mkdirM,
          makedirsM, symlinkM, openWriteM, rmtreeM, mkdtempM,
          cloneResEnv, baseEnv, baseCfg, st0, testDict, Dict.get, Dict.set,
          pathJoin, pathJoinL, basename, afterLastSlash, hasSlash, dirname,
          dirnameL, takeToLastSlash, rstripSlash, allSlash, ostreeInitRepoPath,
          he, hcode]

/-- C2 witness: the amended theorem at the concrete clone failure. -/
theorem C2_witness :
    cloneFailRes.code ≠ 0 ∧
    ((update_configs (cloneResEnv cloneFailRes) 0 st0).1 = Except.ok () ∧
     Event.proc mockUpdateCmd { out := "", err := "", code := 0 } ∈
       ((compose (cloneResEnv cloneFailRes) 0 st0).2).trace ∧
     (compose (cloneResEnv cloneFailRes) 0 st0).1 = Except.ok ()) :=
  ⟨by decide, C2_clone_failure_does_not_abort cloneFailRes (by decide)⟩

/-- C4 amended: for an event whose topic contains the branched marker but
not the rawhide one (which is checked first), a log field other than done
makes consume warn and return without scheduling anything and without
raising. -/
theorem C4_branched_not_done_never_schedules (env : Env) (σ : St)
    (topic : String) (inner : Dict) (a b l : String)
    (hb : substr "branched" topic = true)
    (hr : substr "rawhide" topic = false)
    (ha : Dict.get inner "arch" = some a)
    (hbr : Dict.get inner "branch" = some b)
    (hl : Dict.get inner "log" = some l)
    (hne : l ≠ "done") :
    (consume env { body := { topic := topic, msg := inner } } σ).1 =
      Except.ok () ∧
    ((consume env { body := { topic := topic, msg := inner } } σ).2).trace =
      σ.trace ++
        [Event.infoMsg { body := { topic := topic, msg := inner } },
         Event.info ("New " ++ b ++ " " ++ a ++ " branched compose ready"),
         Event.warn "Compose not done?"] := by
  simp [consume, M.bind, M.pure, emit, dictGet, hb, hr, ha, hbr, hl, hne]

/-- C4 amended witness: a pending branched compose event is dropped with
only the log lines in the trace. -/
theorem C4_witness :
    (consume baseEnv
        { body := { topic := "org.compose.branched.rsync",
                    msg := [("arch", "x86_64"), ("branch", "f40"),
                            ("log", "started")] } } st0).1 = Except.ok () ∧
    ((consume baseEnv
        { body := { topic := "org.compose.branched.rsync",
                    msg := [("arch", "x86_64"), ("branch", "f40"),
                            ("log", "started")] } } st0).2).trace =
      st0.trace ++
        [Event.infoMsg
           { body := { topic := "org.compose.branched.rsync",
                       msg := [("arch", "x86_64"), ("branch", "f40"),
                               ("log", "started")] } },
         Event.info "New f40 x86_64 branched compose ready",
         Event.warn "Compose not done?"] :=
  C4_branched_not_done_never_schedules baseEnv st0 "org.compose.branched.rsync"
    [("arch", "x86_64"), ("branch", "f40"), ("log", "started")]
    "x86_64" "f40" "started"
    (by decide) (by decide) (by decide) (by decide) (by decide) (by decide)

/-- C3 failing input: an event whose topic matches no marker.  consume
logs the warning but then falls through to the release lookup with repo
still None, so it raises KeyError instead of silently dropping the event;
no pipeline run is scheduled. -/
theorem C3_unknown_topic_raises :
    (consume baseEnv unknownMsg st0).1 = Except.error (PyErr.keyerror "None") ∧
    Event.warn "Unknown topic: org.fedoraproject.prod.something.else" ∈
      ((consume baseEnv unknownMsg st0).2).trace ∧
    ((consume baseEnv unknownMsg st0).2).trace.filter isScheduled = [] := by
  decide

/-- C1 counterexample: when os.mkdir raises in step 2, the pipeline stops
with the exception and the scratch directory is never removed, so the
cleanup is not guaranteed on every exit path. -/
theorem C1_counterexample :
    (compose mkdirFailEnv 0 st0).1 =
      Except.error (PyErr.oserror "/tmp/scratch/mock") ∧
    ((compose mkdirFailEnv 0 st0).2).trace.filter isRmtree = [] := by
  decide

/-- C2 counterexample: with the git clone exiting 128, the run does not
abort; the chroot update of step 3 still executes and the pipeline
completes. -/
theorem C2_counterexample :
    Event.proc cloneCmdList cloneFailRes ∈
      ((compose (cloneResEnv cloneFailRes) 0 st0).2).trace ∧
    Event.proc mockUpdateCmd { out := "", err := "", code := 0 } ∈
      ((compose (cloneResEnv cloneFailRes) 0 st0).2).trace ∧
    (compose (cloneResEnv cloneFailRes) 0 st0).1 = Except.ok () := by
  decide

/-- C4 counterexample: a topic containing both the rawhide and the
branched markers is classified as rawhide before the branched branch can
look at the log field, so the event schedules a pipeline run even though
log is not done. -/
theorem C4_counterexample :
    substr "branched" bothMarkersMsg.body.topic = true ∧
    Dict.get bothMarkersMsg.body.msg "log" = some "started" ∧
    Event.scheduled 1 ∈ ((consume baseEnv bothMarkersMsg st0).2).trace := by
  decide

/-- C5: in every run that reaches step 5, whatever exit code the compose
command reports (the hypothesis admits any nonzero code), the summary
update command of step 6 still runs. -/
theorem C5_summary_runs_even_after_failed_compose (env : Env) (rel : Nat)
    (σ σ4 : St) (ld gd tf od mock md nm : String)
    (hpre : pipelinePrefix4 env rel σ = (Except.ok (), σ4))
    (hld : Dict.get (σ4.heap.mem rel) "log_dir" = some ld)
    (hgd : Dict.get (σ4.heap.mem rel) "git_dir" = some gd)
    (hopen : env.openFails (pathJoin gd "treefile.json") = false)
    (htf : Dict.get (σ4.heap.mem rel) "treefile" = some tf)
    (hod : Dict.get (σ4.heap.mem rel) "output_dir" = some od)
    (hmock : Dict.get (σ4.heap.mem rel) "mock" = some mock)
    (hmd : Dict.get (σ4.heap.mem rel) "mock_dir" = some md)
    (hnm : Dict.get (σ4.heap.mem rel) "name" = some nm)
    (hcode : (env.run (mockCmdArgs mock md [Sum.inl "--shell",
        Sum.inl ("rpm-ostree compose tree --repo=" ++ od ++ " " ++
                 pathJoin gd "treefile.json" ++ " >" ++
                 pathJoin ld "rpm-ostree.log" ++ " 2>&1")])).code ≠ 0) :
    Event.proc
        (mockCmdArgs mock md [Sum.inl "--shell",
           Sum.inl ("ostree --repo=" ++ od ++ " summary --update")])
        (env.run (mockCmdArgs mock md [Sum.inl "--shell",
           Sum.inl ("ostree --repo=" ++ od ++ " summary --update")])) ∈
      ((compose env rel σ).2).trace := by
  rw [compose_after_step4 env rel σ σ4 hpre]
  simp only [M.bind, ostree_compose, update_ostree_summary, mock_shell,
             mock_cmd, pyListWrap, call_eq, emit, M.pure, getKey, openWriteM,
             List.map_cons, List.map_nil, hld, hgd, htf, hod, hmock, hmd,
             hnm, hopen, Bool.false_eq_true, if_false]
  refine cleanup_mem env rel _ _ ?_
  simp [callEvents, List.mem_append, List.mem_cons]

/-- C5 witness: with the compose command exiting 1 on the fixture, the
summary update still appears in the trace. -/
theorem C5_witness :
    Event.proc summaryCmdList { out := "", err := "", code := 0 } ∈
      ((compose composeFailEnv 0 st0).2).trace := by
  have hpre : pipelinePrefix4 composeFailEnv 0 st0 =
      (Except.ok (), (pipelinePrefix4 composeFailEnv 0 st0).2) :=
    split_ok (by decide)
  exact C5_summary_runs_even_after_failed_compose composeFailEnv 0 st0
    ((pipelinePrefix4 composeFailEnv 0 st0).2)
    "/srv/logs/f22" "/tmp/scratch/fedora-atomic.git" "treefile-payload"
    "/srv/fedora-atomic/f22/docker-host" "fedora-22-x86_64"
    "/tmp/scratch/mock" "f22" hpre
    (by decide) (by decide) (by decide) (by decide) (by decide)
    (by decide) (by decide) (by decide) (by decide)

/-- C9: init_mock checks the well-known chroot root for the release mock
profile and, per invocation, runs exactly the init command when that root
is absent and exactly the update command when it is present. -/
theorem C9_init_absent_update_present (env : Env) (rel : Nat) (σ : St)
    (mock md : String)
    (hm : Dict.get (σ.heap.mem rel) "mock" = some mock)
    (hmd : Dict.get (σ.heap.mem rel) "mock_dir" = some md) :
    (env.isdir ("/var/lib/mock/" ++ mock) = false →
      ((init_mock env rel σ).2).trace.filter isProc =
        σ.trace.filter isProc ++
          [Event.proc (mockCmdArgs mock md [Sum.inl "--init"])
             (env.run (mockCmdArgs mock md [Sum.inl "--init"]))]) ∧
    (env.isdir ("/var/lib/mock/" ++ mock) = true →
      ((init_mock env rel σ).2).trace.filter isProc =
        σ.trace.filter isProc ++
          [Event.proc (mockCmdArgs mock md [Sum.inl "--update"])
             (env.run (mockCmdArgs mock md [Sum.inl "--update"]))]) := by
  constructor <;> intro h <;>
    simp [init_mock, mock_cmd, pyListWrap, M.bind, M.pure, emit, getKey,
          call_eq, hm, hmd, h, callEvents, isProc, List.filter_append,
          apply_ite (List.filter isProc), ite_self]

/-- C9 witness: on the fixture with every directory present, init_mock
runs exactly the update command. -/
theorem C9_witness :
    ((init_mock baseEnv 0 c8St).2).trace.filter isProc =
      c8St.trace.filter isProc ++
        [Event.proc mockUpdateCmd { out := "", err := "", code := 0 }] :=
  (C9_init_absent_update_present baseEnv 0 c8St "fedora-22-x86_64"
      "/tmp/scratch/mock" (by decide) (by decide)).2 (by decide)

/-- C6: ostree_init never reinitializes an existing repository: when the
target path exists no command at all is spawned, and when it is absent
(with the parent and log directories present) exactly the init command
runs. -/
theorem C6_no_reinit_when_repo_exists (env : Env) (rel : Nat) (σ : St)
    (od ld tree mock md : String)
    (hod : Dict.get (σ.heap.mem rel) "output_dir" = some od)
    (hld : Dict.get (σ.heap.mem rel) "log_dir" = some ld)
    (htree : Dict.get (σ.heap.mem rel) "tree" = some tree)
    (hm : Dict.get (σ.heap.mem rel) "mock" = some mock)
    (hmd : Dict.get (σ.heap.mem rel) "mock_dir" = some md) :
    (env.isdir (ostreeInitRepoPath od tree) = true →
      ((ostree_init env rel σ).2).trace.filter isProc =
        σ.trace.filter isProc) ∧
    (env.isdir (ostreeInitRepoPath od tree) = false →
     env.isdir (dirname od) = true → env.isdir ld = true →
      ((ostree_init env rel σ).2).trace.filter isProc =
        σ.trace.filter isProc ++
          [Event.proc
             (mockCmdArgs mock md [Sum.inl "--shell",
                Sum.inl ("ostree init --repo=" ++ ostreeInitRepoPath od tree ++
                         " --mode=archive-z2 >" ++ pathJoin ld "ostree.log" ++
                         " 2>&1")])
             (env.run
               (mockCmdArgs mock md [Sum.inl "--shell",
                  Sum.inl ("ostree init --repo=" ++ ostreeInitRepoPath od tree ++
                           " --mode=archive-z2 >" ++ pathJoin ld "ostree.log" ++
                           " 2>&1")]))]) := by
  constructor
  · intro h
    cases hb : env.isdir (dirname od) <;> cases hl : env.isdir ld <;>
      by_cases hmk1 : env.makedirsFails (dirname od) <;>
        by_cases hmk2 : env.makedirsFails ld <;>
          simp [ostree_init, M.bind, M.pure, emit, getKey, makedirsM,
                hod, hld, htree, h, hb, hl, hmk1, hmk2, isProc,
                List.filter_append]
  · intro h hb hl
    simp [ostree_init, mock_shell, mock_cmd, pyListWrap, M.bind, M.pure,
          emit, getKey, call_eq, hod, hld, htree, hm, hmd, h, hb, hl,
          callEvents, isProc, List.filter_append,
          apply_ite (List.filter isProc), ite_self]

/-- C6 witness: with the repository path present nothing is spawned; on
the c8 fixture (path absent) exactly the init command is spawned. -/
theorem C6_witness :
    ((ostree_init baseEnv 0 c8St).2).trace.filter isProc =
      c8St.trace.filter isProc ∧
    ((ostree_init c8Env 0 c8St).2).trace.filter isProc =
      c8St.trace.filter isProc ++
        [Event.proc
           (mockCmdArgs "fedora-22-x86_64" "/tmp/scratch/mock"
              [Sum.inl "--shell",
               Sum.inl ("ostree init --repo=" ++
                        ostreeInitRepoPath "/srv/atomic/f22" "docker-host" ++
                        " --mode=archive-z2 >" ++
                        pathJoin "/srv/logs/f22" "ostree.log" ++ " 2>&1")])
           (c8Env.run
             (mockCmdArgs "fedora-22-x86_64" "/tmp/scratch/mock"
                [Sum.inl "--shell",
                 Sum.inl ("ostree init --repo=" ++
                          ostreeInitRepoPath "/srv/atomic/f22" "docker-host" ++
                          " --mode=archive-z2 >" ++
                          pathJoin "/srv/logs/f22" "ostree.log" ++ " 2>&1")]))] :=
  ⟨(C6_no_reinit_when_repo_exists baseEnv 0 c8St
      "/srv/atomic/f22" "/srv/logs/f22" "docker-host"
      "fedora-22-x86_64" "/tmp/scratch/mock"
      (by decide) (by decide) (by decide) (by decide) (by decide)).1
     (by decide),
   (C6_no_reinit_when_repo_exists c8Env 0 c8St
      "/srv/atomic/f22" "/srv/logs/f22" "docker-host"
      "fedora-22-x86_64" "/tmp/scratch/mock"
      (by decide) (by decide) (by decide) (by decide) (by decide)).2
     (by decide) (by decide) (by decide)⟩

/-- C10: the runs operate on a deep copy: consume leaves every dictionary
reachable from the releases mapping unchanged (any cell below the
allocation bound, which covers all previously allocated dictionaries),
and every pipeline step of compose writes only the dictionary of its own
run. -/
theorem C10_releases_unchanged (env : Env) (msg : Msg) (σ : St) (n : String)
    (r rel rx : Nat) (hmap : env.releasesMap n = some r)
    (hlt : r < σ.heap.next) (hne : rx ≠ rel) :
    ((consume env msg σ).2).heap.mem r = σ.heap.mem r ∧
    ((compose env rel σ).2).heap.mem rx = σ.heap.mem rx :=
  ⟨(lowFixed_consume env msg σ r hlt).1, cellFixed_compose env rel hne σ⟩

/-- C10 witness: the rawhide entry at cell 0 is untouched by a consume
that schedules a run, and by a compose working on cell 1. -/
theorem C10_witness :
    baseEnv.releasesMap "rawhide" = some 0 ∧
    (0 : Nat) < st0.heap.next ∧ (1 : Nat) ≠ 0 ∧
    (((consume baseEnv bothMarkersMsg st0).2).heap.mem 0 = st0.heap.mem 0 ∧
     ((compose baseEnv 0 st0).2).heap.mem 1 = st0.heap.mem 1) :=
  ⟨by decide, by decide, by decide,
   C10_releases_unchanged baseEnv bothMarkersMsg st0 "rawhide" 0 0 1
     (by decide) (by decide) (by decide)⟩

/-- C8 counterexample: for a release whose output_dir does not end in the
tree name, the init command targets dirname(output_dir)/tree while the
compose and summary commands target output_dir itself; neither path is
output_dir/tree as the claim states. -/
theorem C8_counterexample :
    ((ostree_init c8Env 0 c8St).2).trace.filter isProc =
      [Event.proc
        (mockCmdArgs "fedora-22-x86_64" "/tmp/scratch/mock"
          [Sum.inl "--shell",
           Sum.inl ("ostree init --repo=/srv/atomic/docker-host " ++
                    "--mode=archive-z2 >/srv/logs/f22/ostree.log 2>&1")])
        { out := "", err := "", code := 0 }] ∧
    ((ostree_compose c8Env 0 c8St).2).trace.filter isProc =
      [Event.proc
        (mockCmdArgs "fedora-22-x86_64" "/tmp/scratch/mock"
          [Sum.inl "--shell",
           Sum.inl ("rpm-ostree compose tree --repo=/srv/atomic/f22 " ++
                    "/tmp/scratch/fedora-atomic.git/treefile.json " ++
                    ">/srv/logs/f22/rpm-ostree.log 2>&1")])
        { out := "", err := "", code := 0 }] ∧
    ((update_ostree_summary c8Env 0 c8St).2).trace.filter isProc =
      [Event.proc
        (mockCmdArgs "fedora-22-x86_64" "/tmp/scratch/mock"
          [Sum.inl "--shell",
           Sum.inl "ostree --repo=/srv/atomic/f22 summary --update"])
        { out := "", err := "", code := 0 }] ∧
    ostreeInitRepoPath "/srv/atomic/f22" "docker-host" ≠
      specRepoPath "/srv/atomic/f22" "docker-host" ∧
    "/srv/atomic/f22" ≠ specRepoPath "/srv/atomic/f22" "docker-host" := by
  decide

/-- C8 amended: the repository is produced at output_dir itself, not at
output_dir/tree: when the expanded output_dir is dir/tree (its last
component is the tree name, as in deployed configurations), the path the
init step targets equals output_dir, and output_dir/tree of the claim is
a strictly different path; the compose and summary commands target
output_dir directly (see the counterexample trace). -/
theorem C8_repo_at_output_dir (a t : String) (ht : t ≠ "")
    (hns : ∀ c ∈ t.data, c ≠ '/')
    (ha : a.data.getLast? ≠ some '/') :
    ostreeInitRepoPath (pathJoin a t) t = pathJoin a t ∧
    pathJoin a t ≠ specRepoPath (pathJoin a t) t := by
  have hT : hasSlash t.data = false := hasSlash_eq_false hns
  have hTne : t.data ≠ [] := fun h => ht (String.ext h)
  constructor
  · show String.mk (pathJoinL (dirnameL (pathJoinL a.data t.data)) t.data) =
        String.mk (pathJoinL a.data t.data)
    exact congrArg String.mk (pathJoinL_dirnameL hT ha)
  · intro he
    have hd := congrArg String.data he
    exact pathJoinL_ne hTne (head?_ne_slash hT) hd.symm

/-- C8 amended witness: output_dir /srv/atomic/docker-host with tree
docker-host initializes at output_dir itself, which differs from the
output_dir/tree of the claim. -/
theorem C8_witness :
    ostreeInitRepoPath (pathJoin "/srv/atomic" "docker-host") "docker-host" =
      pathJoin "/srv/atomic" "docker-host" ∧
    pathJoin "/srv/atomic" "docker-host" ≠
      specRepoPath (pathJoin "/srv/atomic" "docker-host") "docker-host" :=
  C8_repo_at_output_dir "/srv/atomic" "docker-host"
    (by decide) (by decide) (by decide)

end AtomicComposer
